import Mathlib

/-!
Shallow embedding of the video edit pipeline in
`backend/app/services/video_processor.py` (class `VideoProcessor`), together
with the segment-calculator behaviour prescribed by the specification, for
comparison. Times are modelled as rationals.
-/

namespace VideoProc

/-- A keep-segment as built by `VideoProcessor._apply_cuts`:
`closed s e` is the filter fragment `trim=start=s:end=e`, and `tail s` is the
open-ended final fragment `trim=start=s` (running to the end of the file). -/
inductive Seg
  | closed (s e : ℚ)
  | tail (s : ℚ)
  deriving DecidableEq, Repr

/-- Stable insertion of a cut into a list sorted by start: the cut goes in
front of the first element whose start is not smaller, so elements with equal
starts keep their original relative order. -/
def insertCut (c : ℚ × ℚ) : List (ℚ × ℚ) → List (ℚ × ℚ)
  | [] => [c]
  | d :: rest => if d.1 < c.1 then d :: insertCut c rest else c :: d :: rest

/-- `sorted(cuts, key=lambda x: x['start'])` from `_apply_cuts`: stable sort
of the cut list by start time (Python's `sorted` is stable, and every stable
sort by the same key produces the same list).  A cut `{start, end}` is the
pair `(start, end)`. -/
def sortCuts (cuts : List (ℚ × ℚ)) : List (ℚ × ℚ) :=
  cuts.foldr insertCut []

/-- The body of the `for cut in sorted_cuts` loop in `_apply_cuts`:
if `current_time < cut_start` emit the gap segment, then set
`current_time = cut_end`. -/
def cutStep (acc : List Seg × ℚ) (cut : ℚ × ℚ) : List Seg × ℚ :=
  (if acc.2 < cut.1 then acc.1 ++ [Seg.closed acc.2 cut.1] else acc.1, cut.2)

/-- The whole loop of `_apply_cuts`, starting from `current_time = 0` with no
segments emitted. -/
def cutFold (cuts : List (ℚ × ℚ)) : List Seg × ℚ :=
  cuts.foldl cutStep ([], 0)

/-- The list of keep-segments `_apply_cuts` builds for a given cut list and
probed `total_duration`: the sorted-walk segments plus the final open
segment when `current_time < total_duration`. -/
def cutSegments (cuts : List (ℚ × ℚ)) (total : ℚ) : List Seg :=
  let r := cutFold (sortCuts cuts)
  if r.2 < total then r.1 ++ [Seg.tail r.2] else r.1

/-- Outcome of `_apply_cuts`: either the input path is returned unchanged
(`not cuts`, or `segment_index == 0`) with no ffmpeg invocation, or ffmpeg is
invoked with the given concat segments. -/
inductive CutResult
  | passthrough
  | invoke (segs : List Seg)
  deriving DecidableEq, Repr

/-- The observable decision of `_apply_cuts` given the cut list and the
probed `total_duration`. -/
def applyCuts (cuts : List (ℚ × ℚ)) (total : ℚ) : CutResult :=
  if cuts = [] then CutResult.passthrough
  else
    let segs := cutSegments cuts total
    if segs = [] then CutResult.passthrough else CutResult.invoke segs

/-- Duration covered by one emitted segment of a file of length `total`
(the open-ended `tail` fragment runs to the end of the file). -/
def segDuration (total : ℚ) : Seg → ℚ
  | Seg.closed s e => e - s
  | Seg.tail s => total - s

/-- Total duration kept by a segment list. -/
def keptDuration (total : ℚ) (segs : List Seg) : ℚ :=
  (segs.map (segDuration total)).sum

/-- `coveredFromB cur cs total` says the cuts `cs`, taken in order starting
with the playhead at `cur`, chain over the whole remaining window: each cut
starts at or before the playhead and the last one reaches `total`. -/
def coveredFromB : ℚ → List (ℚ × ℚ) → ℚ → Bool
  | cur, [], total => decide (total ≤ cur)
  | cur, (s, e) :: rest, total => decide (s ≤ cur) && coveredFromB e rest total

/-! ### The Segment Calculator as the specification words it (§4.1)

The following definitions follow the specification's description of
`computeKeepSegments` (clip, discard, sort, merge overlapping-or-touching,
walk); they exist only to be compared with the behaviour of `_apply_cuts`
above. -/

/-- Follows the spec's words: clip every cut to `[ts, we]` and discard cuts
that fall entirely outside the window. -/
def specClip (ts we : ℚ) (cuts : List (ℚ × ℚ)) : List (ℚ × ℚ) :=
  (cuts.map (fun c => (max ts c.1, min we c.2))).filter (fun c => decide (c.1 < c.2))

/-- Follows the spec's words: merge a start-sorted list of cuts, fusing
overlapping or touching neighbours into maximal disjoint intervals. -/
def specMergeAux (c : ℚ × ℚ) : List (ℚ × ℚ) → List (ℚ × ℚ)
  | [] => [c]
  | d :: rest =>
      if d.1 ≤ c.2 then specMergeAux (c.1, max c.2 d.2) rest
      else c :: specMergeAux d rest

/-- Follows the spec's words: merge overlapping or touching cuts of a
start-sorted list into maximal disjoint intervals. -/
def specMerge : List (ℚ × ℚ) → List (ℚ × ℚ)
  | [] => []
  | c :: rest => specMergeAux c rest

/-- Follows the spec's words: walk the window left to right, emitting a
keep-segment for every gap before the next cut, and a final segment up to
`we` when non-empty. -/
def specWalk (cur we : ℚ) : List (ℚ × ℚ) → List (ℚ × ℚ)
  | [] => if cur < we then [(cur, we)] else []
  | c :: rest => (if cur < c.1 then [(cur, c.1)] else []) ++ specWalk c.2 we rest

/-- Follows the spec's words (§4.1 steps 3–5): the keep-segments of the
corrected Segment Calculator. -/
def specKeepSegments (ts we : ℚ) (cuts : List (ℚ × ℚ)) : List (ℚ × ℚ) :=
  specWalk ts we (specMerge (sortCuts (specClip ts we cuts)))

/-- Total duration of the merged cuts intersected with the window, per the
spec's guarantee clause. -/
def specMergedCutDuration (ts we : ℚ) (cuts : List (ℚ × ℚ)) : ℚ :=
  ((specMerge (sortCuts (specClip ts we cuts))).map (fun c => c.2 - c.1)).sum

/-! ### Filter chain builder (`_apply_filters`) -/

/-- A filter entry `{type, params}` with its parameter already extracted
(the Python code reads it from the `params` dict with a default); entries
whose `type` matches no branch of the `if/elif` chain are `unknown` and
contribute nothing. -/
inductive Filter
  | brightness (value : ℚ)
  | contrast (value : ℚ)
  | saturation (value : ℚ)
  | blur (radius : ℚ)
  | grayscale
  | sepia
  | volume (value : ℚ)
  | speed (factor : ℚ)
  | unknown
  deriving DecidableEq, Repr

/-- One element of the `-vf` chain, carrying the numeric argument the code
interpolates into the ffmpeg filter string. -/
inductive VFElem
  | eqBrightness (v : ℚ)
  | eqContrast (v : ℚ)
  | eqSaturation (v : ℚ)
  | boxblur (r : ℚ)
  | hueS0
  | sepiaMix
  | setpts (factor : ℚ)
  deriving DecidableEq, Repr

/-- One element of the `-af` chain. -/
inductive AFElem
  | volume (v : ℚ)
  | atempo (v : ℚ)
  deriving DecidableEq, Repr

/-- What one loop iteration of `_apply_filters` appends to `video_filters`:
brightness is divided by 100 before interpolation; `speed` appends
`setpts={1/speed}*PTS`. -/
def vElems : Filter → List VFElem
  | Filter.brightness v => [VFElem.eqBrightness (v / 100)]
  | Filter.contrast v => [VFElem.eqContrast v]
  | Filter.saturation v => [VFElem.eqSaturation v]
  | Filter.blur r => [VFElem.boxblur r]
  | Filter.grayscale => [VFElem.hueS0]
  | Filter.sepia => [VFElem.sepiaMix]
  | Filter.volume _ => []
  | Filter.speed s => [VFElem.setpts (1 / s)]
  | Filter.unknown => []

/-- What one loop iteration of `_apply_filters` appends to `audio_filters`:
only `volume` and `speed` (which appends `atempo={speed}`) touch audio. -/
def aElems : Filter → List AFElem
  | Filter.volume v => [AFElem.volume v]
  | Filter.speed s => [AFElem.atempo s]
  | _ => []

/-- One iteration of the `for filter_config in filters` loop. -/
def filtStep (acc : List VFElem × List AFElem) (f : Filter) : List VFElem × List AFElem :=
  (acc.1 ++ vElems f, acc.2 ++ aElems f)

/-- The `video_filters`/`audio_filters` pair built by the loop of
`_apply_filters`. -/
def buildFilterChains (l : List Filter) : List VFElem × List AFElem :=
  l.foldl filtStep ([], [])

/-- A stream-filter argument of the final ffmpeg command. -/
inductive FArg
  | vf (chain : List VFElem)
  | af (chain : List AFElem)
  deriving DecidableEq, Repr

/-- The `if video_filters and audio_filters / elif video_filters /
elif audio_filters` block of `_apply_filters`: which stream arguments the
single ffmpeg invocation receives. -/
def filterCmdArgs (v : List VFElem) (a : List AFElem) : List FArg :=
  if v ≠ [] ∧ a ≠ [] then [FArg.vf v, FArg.af a]
  else if v ≠ [] then [FArg.vf v]
  else if a ≠ [] then [FArg.af a]
  else []

/-! ### External tool invoker (`_run_ffmpeg_command`) -/

/-- `_run_ffmpeg_command` distilled to its observable result: given the
spawned process's exit code and captured stderr, a non-zero exit raises
`Exception(f"FFmpeg processing failed: {error_msg}")` with the stderr text
embedded verbatim; a zero exit returns normally. -/
def runFfmpegResult (exitCode : ℤ) (stderrText : String) : Except String Unit :=
  if exitCode ≠ 0 then Except.error ("FFmpeg processing failed: " ++ stderrText)
  else Except.ok ()

/-! ### Pipeline orchestrator (`process_video`)

The filesystem is an association list from path to an abstract content id;
each external invocation consults an oracle `o : ℕ → Bool` (indexed by
invocation order) that says whether the spawned process exits zero. -/

/-- Kind of external process spawned by the pipeline. -/
inductive CallKind
  | trim
  | cut
  | filter
  | probe
  deriving DecidableEq, Repr

/-- Filesystem model: paths to abstract content ids. -/
abbrev FS := List (String × ℕ)

/-- Look a path up in the filesystem. -/
def FS.find : FS → String → Option ℕ
  | [], _ => none
  | (q, c) :: rest, p => if p = q then some c else FS.find rest p

/-- `os.remove` (removing every entry at the path). -/
def FS.remove : FS → String → FS
  | [], _ => []
  | (q, c) :: rest, p => if q = p then FS.remove rest p else (q, c) :: FS.remove rest p

/-- Write a file (overwriting any previous content at that path). -/
def FS.write (fs : FS) (p : String) (c : ℕ) : FS := (p, c) :: FS.remove fs p

/-- `os.rename(src, dst)`: the content moves, unchanged, from `src` to
`dst`. -/
def FS.rename (fs : FS) (src dst : String) : FS :=
  match FS.find fs src with
  | some c => FS.write (FS.remove fs src) dst c
  | none => fs

/-- Mutable pipeline state: the filesystem, the ordered log of external
processes spawned so far, the oracle index of the next spawn, and a counter
producing fresh content ids for files ffmpeg writes. -/
structure PipeState where
  fs : FS
  calls : List CallKind
  callIdx : ℕ
  nextContent : ℕ
  deriving DecidableEq, Repr

/-- Spawn one external process of kind `k`: it is appended to the call log
exactly once whatever its outcome, and the oracle decides its exit status. -/
def spawn (o : ℕ → Bool) (k : CallKind) (st : PipeState) : Bool × PipeState :=
  (o st.callIdx, { st with calls := st.calls ++ [k], callIdx := st.callIdx + 1 })

/-- The captured stderr of a failing ffmpeg process (abstract). -/
def ffmpegStderr : String := "ffmpeg diagnostic"

/-- `_run_ffmpeg_command` at the pipeline level: on a zero exit the command's
output file appears with fresh content; on a non-zero exit the exception
carrying the diagnostic propagates.  Exactly one process is spawned per call
— there is no retry. -/
def runFfmpegCall (o : ℕ → Bool) (k : CallKind) (outPath : String) (st : PipeState) :
    Except String Unit × PipeState :=
  let r := spawn o k st
  if r.1 then
    (Except.ok (), { r.2 with fs := FS.write r.2.fs outPath r.2.nextContent,
                              nextContent := r.2.nextContent + 1 })
  else (Except.error ("FFmpeg processing failed: " ++ ffmpegStderr), r.2)

/-- `_get_video_info`: one ffprobe spawn; it writes nothing and raises when
the process exits non-zero. -/
def probeCall (o : ℕ → Bool) (st : PipeState) : Except String Unit × PipeState :=
  let r := spawn o CallKind.probe st
  if r.1 then (Except.ok (), r.2)
  else (Except.error "ffprobe failed", r.2)

/-- Characters of a path after its last slash. -/
def basenameAux : List Char → List Char → List Char
  | acc, [] => acc
  | acc, ch :: rest =>
      if ch = '/' then basenameAux [] rest else basenameAux (acc ++ [ch]) rest

/-- `os.path.basename`: the part of the path after the last slash. -/
def basename (p : String) : String := String.mk (basenameAux [] p.data)

/-- `_apply_trim`: skipped (input passed through, nothing spawned) when
`start_time == 0 and end_time is None`; otherwise one ffmpeg invocation
writing `temp/trimmed_<basename>`. -/
def applyTrimSt (o : ℕ → Bool) (inputPath : String) (ts : ℚ) (te : Option ℚ)
    (st : PipeState) : Except String String × PipeState :=
  if ts = 0 ∧ te = none then (Except.ok inputPath, st)
  else
    let outP := "temp/trimmed_" ++ basename inputPath
    match runFfmpegCall o CallKind.trim outP st with
    | (Except.ok _, st') => (Except.ok outP, st')
    | (Except.error e, st') => (Except.error e, st')

/-- `_apply_cuts`: passthrough when `not cuts`; otherwise ffprobe the input
for `total_duration` (modelled by the `probedDuration` parameter), then
either passthrough when `segment_index == 0` or one ffmpeg invocation
writing `temp/cut_<basename>`. -/
def applyCutsSt (o : ℕ → Bool) (probedDuration : ℚ) (inputPath : String)
    (cuts : List (ℚ × ℚ)) (st : PipeState) : Except String String × PipeState :=
  if cuts = [] then (Except.ok inputPath, st)
  else
    match probeCall o st with
    | (Except.error e, st') => (Except.error e, st')
    | (Except.ok _, st') =>
      match applyCuts cuts probedDuration with
      | CutResult.passthrough => (Except.ok inputPath, st')
      | CutResult.invoke _ =>
        let outP := "temp/cut_" ++ basename inputPath
        match runFfmpegCall o CallKind.cut outP st' with
        | (Except.ok _, st'') => (Except.ok outP, st'')
        | (Except.error e, st'') => (Except.error e, st'')

/-- `_apply_filters`: passthrough when `not filters`; otherwise one ffmpeg
invocation writing `temp/filtered_<basename>` (the chain strings do not
change the control flow). -/
def applyFiltersSt (o : ℕ → Bool) (inputPath : String) (filters : List Filter)
    (st : PipeState) : Except String String × PipeState :=
  if filters = [] then (Except.ok inputPath, st)
  else
    let outP := "temp/filtered_" ++ basename inputPath
    match runFfmpegCall o CallKind.filter outP st with
    | (Except.ok _, st') => (Except.ok outP, st')
    | (Except.error e, st') => (Except.error e, st')

/-- `_cleanup_temp_files`: remove each path that exists and is not the
string of `output_dir` (`"processed"`), ignoring failures. -/
def cleanupFiles (fs : FS) (paths : List String) : FS :=
  paths.foldl
    (fun acc p => if (FS.find acc p).isSome ∧ p ≠ "processed" then FS.remove acc p else acc)
    fs

/-- The `editing_data` dict fields `process_video` extracts. -/
structure EditingData where
  trimStart : ℚ
  trimEnd : Option ℚ
  cuts : List (ℚ × ℚ)
  filters : List Filter
  deriving DecidableEq, Repr

/-- The dict `process_video` returns, restricted to the fields the claims
are about. -/
structure ProcResult where
  success : Bool
  outputPath : Option String
  error : Option String
  deriving DecidableEq, Repr

/-- `VideoProcessor.process_video`: trim, cuts, filters in sequence; rename
the last artifact to `processed/<output_filename>` when different; probe the
output; clean up `[trimmed_path, cut_path, filtered_path]` — and on ANY
exception the `except` branch returns `{success: False, error}` without any
cleanup. -/
def process_video (o : ℕ → Bool) (probedDuration : ℚ) (inputPath : String)
    (ed : EditingData) (outputFilename : String) (st0 : PipeState) :
    ProcResult × PipeState :=
  let outputPath := "processed/" ++ outputFilename
  match applyTrimSt o inputPath ed.trimStart ed.trimEnd st0 with
  | (Except.error e, st) => (⟨false, none, some e⟩, st)
  | (Except.ok trimmedPath, st1) =>
    match applyCutsSt o probedDuration trimmedPath ed.cuts st1 with
    | (Except.error e, st) => (⟨false, none, some e⟩, st)
    | (Except.ok cutPath, st2) =>
      match applyFiltersSt o cutPath ed.filters st2 with
      | (Except.error e, st) => (⟨false, none, some e⟩, st)
      | (Except.ok filteredPath, st3) =>
        let st4 := if filteredPath ≠ outputPath
                   then { st3 with fs := FS.rename st3.fs filteredPath outputPath }
                   else st3
        match probeCall o st4 with
        | (Except.error e, st) => (⟨false, none, some e⟩, st)
        | (Except.ok _, st5) =>
          let st6 := { st5 with
            fs := cleanupFiles st5.fs [trimmedPath, cutPath, filteredPath] }
          (⟨true, some outputPath, none⟩, st6)

/-! ### Helper lemmas -/

lemma find_write_self (fs : FS) (p : String) (c : ℕ) :
    FS.find (FS.write fs p c) p = some c := by
  simp [FS.write, FS.find]

lemma find_remove_self (fs : FS) (p : String) :
    FS.find (FS.remove fs p) p = none := by
  induction fs with
  | nil => rfl
  | cons hd tl ih =>
    obtain ⟨q, c⟩ := hd
    by_cases h : q = p
    · simpa [FS.remove, h] using ih
    · simpa [FS.remove, FS.find, h, Ne.symm h] using ih

lemma find_remove_ne (fs : FS) (p q : String) (h : p ≠ q) :
    FS.find (FS.remove fs q) p = FS.find fs p := by
  induction fs with
  | nil => rfl
  | cons hd tl ih =>
    obtain ⟨a, c⟩ := hd
    by_cases hq : a = q
    · have hap : p ≠ a := fun e => h (e.trans hq)
      simpa [FS.remove, FS.find, hq, hap, h] using ih
    · by_cases hp : p = a
      · simp [FS.remove, FS.find, hq, hp]
      · simpa [FS.remove, FS.find, hq, hp] using ih

/-- Walking the sorted-cut loop over a chain of cuts that covers the rest of
the window emits nothing and leaves the playhead at or past `total`. -/
lemma cutFold_covered (cs : List (ℚ × ℚ)) : ∀ (segs : List Seg) (cur total : ℚ),
    coveredFromB cur cs total = true →
    (cs.foldl cutStep (segs, cur)).1 = segs ∧ total ≤ (cs.foldl cutStep (segs, cur)).2 := by
  induction cs with
  | nil =>
    intro segs cur total h
    simp only [coveredFromB, decide_eq_true_eq] at h
    exact ⟨rfl, h⟩
  | cons hd tl ih =>
    intro segs cur total h
    obtain ⟨s, e⟩ := hd
    simp only [coveredFromB, Bool.and_eq_true, decide_eq_true_eq] at h
    have hns : ¬ cur < s := not_lt.mpr h.1
    have := ih segs e total h.2
    simpa [List.foldl_cons, cutStep, hns] using this

/-- Full characterisation of a no-op run of `process_video`
(`trimStart=0, trimEnd=None, cuts=[], filters=[]`): all three stages pass the
input through, the input file is renamed to the output path, the final probe
is the only external process, and cleanup removes nothing. -/
lemma process_video_noop (o : ℕ → Bool) (d : ℚ) (input outName : String) (c : ℕ)
    (st0 : PipeState) (hin : FS.find st0.fs input = some c)
    (hne : input ≠ "processed/" ++ outName) (hok : o st0.callIdx = true) :
    process_video o d input ⟨0, none, [], []⟩ outName st0 =
      (⟨true, some ("processed/" ++ outName), none⟩,
       { st0 with
          fs := FS.write (FS.remove st0.fs input) ("processed/" ++ outName) c,
          calls := st0.calls ++ [CallKind.probe],
          callIdx := st0.callIdx + 1 }) := by
  have h1 : FS.find (FS.write (FS.remove st0.fs input) ("processed/" ++ outName) c) input
      = none := by
    simp [FS.write, FS.find, hne, find_remove_ne _ _ _ hne, find_remove_self]
  simp [process_video, applyTrimSt, applyCutsSt, applyFiltersSt, probeCall, spawn,
        FS.rename, hin, hne, hok, cleanupFiles, h1]

/-! ### Claim theorems -/

/-- Claim C1 (code_bug evidence): `_apply_cuts` sorts the cuts by start but
does not merge overlapping cuts.  On the claim's own example
`cuts=[{2,6},{4,8}]` over a 30s source the emitted segments happen to agree
with the merged computation (`[0,2]` and the tail from `8`), but on the
nested cuts `[{2,10},{4,6}]` the code sets `current_time` back to `6` and
keeps the tail from `6`, retaining `[6,10]` which lies inside the cut
`[2,10]`; the spec-mandated merged calculator keeps `[0,2],[10,30]`
instead. -/
theorem cut_stage_sorts_but_does_not_merge :
    cutSegments [((2:ℚ),(6:ℚ)),(4,8)] 30 = [Seg.closed 0 2, Seg.tail 8] ∧
    sortCuts [((2:ℚ),(10:ℚ)),(4,6)] = [(2,10),(4,6)] ∧
    cutSegments [((2:ℚ),(10:ℚ)),(4,6)] 30 = [Seg.closed 0 2, Seg.tail 6] ∧
    specKeepSegments 0 30 [((2:ℚ),(10:ℚ)),(4,6)] = [(0,2),(10,30)] ∧
    cutSegments [((2:ℚ),(10:ℚ)),(4,6)] 30 ≠ [Seg.closed 0 2, Seg.tail 10] := by
  decide

/-- Claim C2 (code_bug evidence): for the nested cuts `[{2,10},{4,6}]` on a
30s window the code keeps 26s, while the spec guarantee `windowDuration −
duration(merged cuts ∩ window)` demands `30 − 8 = 22s`. -/
theorem kept_duration_not_window_minus_merged_cuts :
    keptDuration 30 (cutSegments [((2:ℚ),(10:ℚ)),(4,6)] 30) = 26 ∧
    30 - specMergedCutDuration 0 30 [((2:ℚ),(10:ℚ)),(4,6)] = 22 := by
  have h : cutSegments [((2:ℚ),(10:ℚ)),(4,6)] 30 = [Seg.closed 0 2, Seg.tail 6] := by
    decide
  have h2 : specMerge (sortCuts (specClip 0 30 [((2:ℚ),(10:ℚ)),(4,6)])) = [(2,10)] := by
    decide
  constructor
  · rw [h]; simp [keptDuration, segDuration]; norm_num
  · unfold specMergedCutDuration; rw [h2]; norm_num

/-- Claim C3 (code_bug evidence): for `cuts=[{20,10}]` (start ≥ end) no
validation happens anywhere — `_apply_cuts` builds the overlapping segments
`[0,20]` and the tail from `10`, spawns ffprobe and ffmpeg, writes a temp
artifact, and the whole pipeline reports success, instead of returning a
`ValidationError` before any process is spawned with the temp dir
untouched. -/
theorem inverted_cut_spawns_ffmpeg_without_validation :
    applyCuts [((20:ℚ),(10:ℚ))] 30 = CutResult.invoke [Seg.closed 0 20, Seg.tail 10] ∧
    (applyCutsSt (fun _ => true) 30 "uploads/in.mp4" [((20:ℚ),(10:ℚ))]
        ⟨[("uploads/in.mp4", 0)], [], 0, 1⟩).2.calls = [CallKind.probe, CallKind.cut] ∧
    FS.find (applyCutsSt (fun _ => true) 30 "uploads/in.mp4" [((20:ℚ),(10:ℚ))]
        ⟨[("uploads/in.mp4", 0)], [], 0, 1⟩).2.fs "temp/cut_in.mp4" = some 1 ∧
    (process_video (fun _ => true) 30 "uploads/in.mp4" ⟨0, none, [(20,10)], []⟩ "out.mp4"
        ⟨[("uploads/in.mp4", 0)], [], 0, 1⟩).1.success = true := by
  decide

/-- Claim C4 (code_bug evidence): when the filter-stage ffmpeg invocation
(the fourth external process, oracle index 3) fails after trim and cut
succeeded, `process_video`'s `except` branch returns `{success: False}`
without ever calling `_cleanup_temp_files`, so `temp/trimmed_in.mp4` and
`temp/cut_trimmed_in.mp4` are left on disk. -/
theorem failure_path_leaves_temp_artifacts :
    (process_video (fun n => n != 3) 9 "uploads/in.mp4"
        ⟨1, some 10, [((2:ℚ),(3:ℚ))], [Filter.brightness 5]⟩ "out.mp4"
        ⟨[("uploads/in.mp4", 0)], [], 0, 1⟩).1.success = false ∧
    FS.find (process_video (fun n => n != 3) 9 "uploads/in.mp4"
        ⟨1, some 10, [((2:ℚ),(3:ℚ))], [Filter.brightness 5]⟩ "out.mp4"
        ⟨[("uploads/in.mp4", 0)], [], 0, 1⟩).2.fs "temp/trimmed_in.mp4" = some 1 ∧
    FS.find (process_video (fun n => n != 3) 9 "uploads/in.mp4"
        ⟨1, some 10, [((2:ℚ),(3:ℚ))], [Filter.brightness 5]⟩ "out.mp4"
        ⟨[("uploads/in.mp4", 0)], [], 0, 1⟩).2.fs "temp/cut_trimmed_in.mp4" = some 2 := by
  decide

/-- Claim C5 counterexample: with `cuts=[{0,30}]` covering the whole 30s
window, the pipeline does NOT report any error — it returns success with an
output file (the input passed through unchanged, content id 0), so no
`EmptyResultError` reaches the caller. -/
theorem full_coverage_produces_output_not_error :
    (process_video (fun _ => true) 30 "uploads/in.mp4" ⟨0, none, [(0,30)], []⟩ "out.mp4"
        ⟨[("uploads/in.mp4", 0)], [], 0, 1⟩).1 =
      ⟨true, some "processed/out.mp4", none⟩ ∧
    FS.find (process_video (fun _ => true) 30 "uploads/in.mp4" ⟨0, none, [(0,30)], []⟩
        "out.mp4" ⟨[("uploads/in.mp4", 0)], [], 0, 1⟩).2.fs "processed/out.mp4" = some 0 := by
  decide

/-- Claim C5 (amended): when the cuts, sorted by start, chain over the whole
window (each starts at or before the previous playhead, reaching `total`),
`_apply_cuts` emits zero keep-segments and returns its input path unchanged
— one ffprobe spawn, no cut invocation, no error and no `EmptyResultError`. -/
theorem full_coverage_yields_zero_segments_and_passthrough
    (cuts : List (ℚ × ℚ)) (total : ℚ)
    (hne : cuts ≠ []) (hcov : coveredFromB 0 (sortCuts cuts) total = true) :
    cutSegments cuts total = [] ∧ applyCuts cuts total = CutResult.passthrough ∧
    (∀ (o : ℕ → Bool) (input : String) (st : PipeState), o st.callIdx = true →
      applyCutsSt o total input cuts st =
        (Except.ok input,
         { st with calls := st.calls ++ [CallKind.probe], callIdx := st.callIdx + 1 })) := by
  have hmain := cutFold_covered (sortCuts cuts) [] 0 total hcov
  have h1 : (cutFold (sortCuts cuts)).1 = [] := hmain.1
  have h2 : ¬ (cutFold (sortCuts cuts)).2 < total := not_lt.mpr hmain.2
  have hseg : cutSegments cuts total = [] := by
    simp [cutSegments, h1, h2]
  refine ⟨hseg, by simp [applyCuts, hne, hseg], ?_⟩
  intro o input st hok
  simp [applyCutsSt, hne, probeCall, spawn, hok, applyCuts, hseg]

/-- Witness for the amended C5 theorem at the concrete covering cuts
`[{0,15},{10,30}]` on a 30s window. -/
theorem full_coverage_yields_zero_segments_and_passthrough_witness :
    cutSegments [((0:ℚ),(15:ℚ)),(10,30)] 30 = [] ∧
    applyCuts [((0:ℚ),(15:ℚ)),(10,30)] 30 = CutResult.passthrough :=
  ⟨(full_coverage_yields_zero_segments_and_passthrough [((0:ℚ),(15:ℚ)),(10,30)] 30
      (by decide) (by decide)).1,
   (full_coverage_yields_zero_segments_and_passthrough [((0:ℚ),(15:ℚ)),(10,30)] 30
      (by decide) (by decide)).2.1⟩

/-- Claim C6 (code_bug evidence): `_apply_cuts` never clips cuts to the
window nor discards out-of-window cuts: the cut `[40,50]` on a 30s artifact
produces the keep-segment `[0,40]`, whose end lies past the window and whose
kept duration (40s) exceeds the window itself, while the spec's clipped
calculator discards the cut and keeps exactly `[0,30]`. -/
theorem out_of_window_cut_not_clipped :
    cutSegments [((40:ℚ),(50:ℚ))] 30 = [Seg.closed 0 40] ∧
    specKeepSegments 0 30 [((40:ℚ),(50:ℚ))] = [(0,30)] ∧
    keptDuration 30 (cutSegments [((40:ℚ),(50:ℚ))] 30) = 40 := by
  have h : cutSegments [((40:ℚ),(50:ℚ))] 30 = [Seg.closed 0 40] := by decide
  refine ⟨h, by decide, ?_⟩
  rw [h]; simp [keptDuration, segDuration]

/-- Claim C7: `_run_ffmpeg_command` turns a non-zero exit status into an
error carrying the captured stderr verbatim (never swallowed), a zero exit
into success, and every invocation spawns exactly one process — the call log
grows by exactly one entry and the spawn counter by one, whatever the
outcome, so nothing is retried at this layer. -/
theorem tool_runner_nonzero_exit_is_error_without_retry (ec : ℤ) (errText : String) :
    (ec ≠ 0 → runFfmpegResult ec errText =
        Except.error ("FFmpeg processing failed: " ++ errText)) ∧
    (ec = 0 → runFfmpegResult ec errText = Except.ok ()) ∧
    (∀ (o : ℕ → Bool) (k : CallKind) (outP : String) (st : PipeState),
      ((runFfmpegCall o k outP st).2).calls = st.calls ++ [k] ∧
      ((runFfmpegCall o k outP st).2).callIdx = st.callIdx + 1) := by
  refine ⟨fun h => by simp [runFfmpegResult, h], fun h => by simp [runFfmpegResult, h], ?_⟩
  intro o k outP st
  by_cases h : o st.callIdx <;> simp [runFfmpegCall, spawn, h]

/-- Witness for C7 at exit code 1 with stderr "boom", and at exit code 0. -/
theorem tool_runner_nonzero_exit_is_error_without_retry_witness :
    runFfmpegResult 1 "boom" = Except.error ("FFmpeg processing failed: " ++ "boom") ∧
    runFfmpegResult 0 "boom" = Except.ok () :=
  ⟨(tool_runner_nonzero_exit_is_error_without_retry 1 "boom").1 (by decide),
   (tool_runner_nonzero_exit_is_error_without_retry 0 "boom").2.1 rfl⟩

/-- Claim C8: the filter-chain builder maps `Speed(s)` to the video element
`setpts` with factor `1/s` and the audio element `atempo` with factor `s`
(appended at the matching position of each chain), and the command gets both
`-vf` and `-af` together when both chains are non-empty, or only the
non-empty one's argument otherwise. -/
theorem speed_filter_chain_and_stream_argument_selection
    (l : List Filter) (s : ℚ) (hs : 0 < s) :
    buildFilterChains (l ++ [Filter.speed s]) =
      ((buildFilterChains l).1 ++ [VFElem.setpts (1 / s)],
       (buildFilterChains l).2 ++ [AFElem.atempo s]) ∧
    (∀ (v : List VFElem) (a : List AFElem), v ≠ [] → a ≠ [] →
      filterCmdArgs v a = [FArg.vf v, FArg.af a]) ∧
    (∀ v, v ≠ [] → filterCmdArgs v [] = [FArg.vf v]) ∧
    (∀ a, a ≠ [] → filterCmdArgs [] a = [FArg.af a]) := by
  refine ⟨?_, ?_, ?_, ?_⟩
  · simp [buildFilterChains, filtStep, vElems, aElems]
  · intro v a hv ha; simp [filterCmdArgs, hv, ha]
  · intro v hv; simp [filterCmdArgs, hv]
  · intro a ha; simp [filterCmdArgs, ha]

/-- Witness for C8 at `Speed(2)` starting from the empty filter list. -/
theorem speed_filter_chain_and_stream_argument_selection_witness :
    buildFilterChains ([] ++ [Filter.speed 2]) =
      ((buildFilterChains []).1 ++ [VFElem.setpts (1 / 2)],
       (buildFilterChains []).2 ++ [AFElem.atempo 2]) ∧
    filterCmdArgs [VFElem.setpts (1 / 2)] [AFElem.atempo 2] =
      [FArg.vf [VFElem.setpts (1 / 2)], FArg.af [AFElem.atempo 2]] :=
  ⟨(speed_filter_chain_and_stream_argument_selection [] 2 (by norm_num)).1,
   (speed_filter_chain_and_stream_argument_selection [] 2 (by norm_num)).2.1 _ _
     (by simp) (by simp)⟩

/-- Claim C9: a no-op request (`trimStart=0, trimEnd=None, cuts=[],
filters=[]`) skips all three stages — the only external process is the final
ffprobe, no trim, cut or filter invocation occurs — succeeds, and the output
file carries exactly the input's content. -/
theorem noop_request_skips_all_stages (o : ℕ → Bool) (d : ℚ)
    (input outName : String) (c : ℕ) (st0 : PipeState)
    (hin : FS.find st0.fs input = some c)
    (hne : input ≠ "processed/" ++ outName) (hok : o st0.callIdx = true) :
    (process_video o d input ⟨0, none, [], []⟩ outName st0).1.success = true ∧
    (process_video o d input ⟨0, none, [], []⟩ outName st0).2.calls =
      st0.calls ++ [CallKind.probe] ∧
    FS.find (process_video o d input ⟨0, none, [], []⟩ outName st0).2.fs
      ("processed/" ++ outName) = some c := by
  rw [process_video_noop o d input outName c st0 hin hne hok]
  exact ⟨rfl, rfl, find_write_self _ _ _⟩

/-- Witness for C9 for a concrete no-op run. -/
theorem noop_request_skips_all_stages_witness :
    (process_video (fun _ => true) 30 "uploads/in.mp4" ⟨0, none, [], []⟩ "out.mp4"
        ⟨[("uploads/in.mp4", 0)], [], 0, 1⟩).1.success = true ∧
    (process_video (fun _ => true) 30 "uploads/in.mp4" ⟨0, none, [], []⟩ "out.mp4"
        ⟨[("uploads/in.mp4", 0)], [], 0, 1⟩).2.calls = [] ++ [CallKind.probe] ∧
    FS.find (process_video (fun _ => true) 30 "uploads/in.mp4" ⟨0, none, [], []⟩ "out.mp4"
        ⟨[("uploads/in.mp4", 0)], [], 0, 1⟩).2.fs ("processed/" ++ "out.mp4") = some 0 :=
  noop_request_skips_all_stages (fun _ => true) 30 "uploads/in.mp4" "out.mp4" 0
    ⟨[("uploads/in.mp4", 0)], [], 0, 1⟩ (by decide) (by decide) rfl

/-- Claim C10: on the no-op fast path the caller's input file is renamed to
the output path by `os.rename`, so after the successful run the input no
longer exists at its original location. -/
theorem noop_request_moves_input_file_away (o : ℕ → Bool) (d : ℚ)
    (input outName : String) (c : ℕ) (st0 : PipeState)
    (hin : FS.find st0.fs input = some c)
    (hne : input ≠ "processed/" ++ outName) (hok : o st0.callIdx = true) :
    (process_video o d input ⟨0, none, [], []⟩ outName st0).1.success = true ∧
    FS.find (process_video o d input ⟨0, none, [], []⟩ outName st0).2.fs input = none := by
  rw [process_video_noop o d input outName c st0 hin hne hok]
  refine ⟨rfl, ?_⟩
  simp [FS.write, FS.find, hne, find_remove_ne _ _ _ hne, find_remove_self]

/-- Witness for C10 for a concrete no-op run. -/
theorem noop_request_moves_input_file_away_witness :
    (process_video (fun _ => true) 30 "uploads/in.mp4" ⟨0, none, [], []⟩ "out.mp4"
        ⟨[("uploads/in.mp4", 0)], [], 0, 1⟩).1.success = true ∧
    FS.find (process_video (fun _ => true) 30 "uploads/in.mp4" ⟨0, none, [], []⟩ "out.mp4"
        ⟨[("uploads/in.mp4", 0)], [], 0, 1⟩).2.fs "uploads/in.mp4" = none :=
  noop_request_moves_input_file_away (fun _ => true) 30 "uploads/in.mp4" "out.mp4" 0
    ⟨[("uploads/in.mp4", 0)], [], 0, 1⟩ (by decide) (by decide) rfl

end VideoProc
